import Mathlib

/-
Verification development for the Larch epics step-scan engine
(plugins/epics/stepscan.py).  The Python classes `LarchStepScan` and
`ScanMessenger` are shallowly embedded as executable Lean functions.
Machine floats that hold wall-clock times and positions are modelled as
exact rationals; the external world (interrupt requests read through the
scan database, trigger runtimes, positioner readbacks, hook outcomes,
timestamps) is supplied as an explicit environment, and the calls the
engine makes on hardware actors and on the output sink are collected in
an event trace.
-/

namespace StepScan

/-- Python exceptions that the embedded fragment can raise:
`attributeError` for a missing attribute lookup, `warningErr` for the
`raise Warning(...)` in `LarchStepScan.check_outputs`. -/
inductive PyErr
  | attributeError
  | warningErr
deriving DecidableEq, Repr

/-- A positioner as the scan engine sees it: the PV name used in error
messages, the ordered target array, the `current()` readback taken
before the scan (used for the final restore move), and the optional
soft limits of the drive (LLM / HLM fields). -/
structure Positioner where
  pvname : String
  array : List ℚ
  current0 : ℚ
  llm : Option ℚ
  hlm : Option ℚ
deriving DecidableEq, Repr

instance : Inhabited Positioner := ⟨⟨"", [], 0, none, none⟩⟩

/-- Modelled from the spec: `Positioner.verify_array` is defined in
`positioner.py`, which is not among the provided sources (only its
caller `LarchStepScan.verify_scan` is).  Per spec section 4.1, the check
confirms the position array is non-empty and within the device
soft-limit bounds when those are known. -/
def Positioner.verify_array (p : Positioner) : Bool :=
  decide (p.array ≠ []) &&
  (match p.hlm with
   | some h => p.array.all (fun x => decide (x ≤ h))
   | none => true) &&
  (match p.llm with
   | some l => p.array.all (fun x => decide (l ≤ x))
   | none => true)

/-- A trigger; the engine only inspects whether it has an explicit
`stop` method (`trig.stop` truthiness on line 552) and its recorded
`runtime` (supplied per point by the environment). -/
structure Trigger where
  hasStop : Bool
deriving DecidableEq, Repr

/-- The dwell-time policy: `self.dwelltime` is either a scalar applied
to every point or a per-point list (`dwelltime_varys`). -/
inductive Dwell
  | const (d : ℚ)
  | perPoint (ds : List ℚ)
deriving DecidableEq, Repr

/-- Minimum of a list of rationals; Python's `min` raises on an empty
list, the 0 default here is only for totality and is never relied on
for a non-empty dwell list. -/
def listMin : List ℚ → ℚ
  | [] => 0
  | h :: t => t.foldl min h

/-- The immutable part of a `LarchStepScan` at the start of `run`:
actor lists, breakpoints, dwell policy, settle times and the requested
file name. -/
structure ScanCfg where
  positioners : List Positioner
  triggers : List Trigger
  breakpoints : List ℕ
  dwell : Dwell
  pos_settle_time : ℚ
  det_settle_time : ℚ
  filename : String
deriving DecidableEq, Repr

/-- Number of scan points: `len(self.positioners[0].array)` (line 511). -/
def ScanCfg.npts (sc : ScanCfg) : ℕ :=
  (sc.positioners.headD default).array.length

/-- `self.min_dwelltime` (lines 513-520): the scalar dwell, or the
minimum of the per-point dwell list. -/
def ScanCfg.min_dwelltime (sc : ScanCfg) : ℚ :=
  match sc.dwell with
  | .const d => d
  | .perPoint ds => listMin ds

/-- `self.dwelltime_varys` (lines 512-521). -/
def ScanCfg.dwelltime_varys (sc : ScanCfg) : Bool :=
  match sc.dwell with
  | .const _ => false
  | .perPoint _ => true

/-- `trigger_has_stop` (lines 550-552): true when some trigger has a
truthy `stop` attribute. -/
def ScanCfg.trigger_has_stop (sc : ScanCfg) : Bool :=
  sc.triggers.any (·.hasStop)

/-- The attributes of the shared `_scan` larch group that the engine
touches (`self._scangroup`): the error message set by `set_error` and
the info messages set by `set_info`. -/
structure ScanGroupState where
  error_message : Option String
  scan_message : Option String
deriving DecidableEq, Repr

/-- The scan database collaborator, reduced to the key/value pairs
written through `set_info` (most recent first). -/
structure DbState where
  infos : List (String × String)
deriving DecidableEq, Repr

/-- `scandb.set_info(key, value)`. -/
def DbState.set_info (d : DbState) (k v : String) : DbState :=
  ⟨(k, v) :: d.infos⟩

/-- `LarchStepScan.set_error` (lines 385-389): writes the message to
the scan group's `error_message` and, when a scan database is
configured, to its `last_error` info. -/
def set_error (msg : String) (g : ScanGroupState) (db : Option DbState) :
    ScanGroupState × Option DbState :=
  ({ g with error_message := some msg },
   db.map (fun d => d.set_info "last_error" msg))

/-- The loop of `LarchStepScan.verify_scan` (lines 331-342), with its
`set_error` side effects threaded through explicitly.  `npts` is the
running length taken from the first positioner. -/
def verify_scan_loop :
    List Positioner → Option ℕ → ScanGroupState → Option DbState →
      Bool × ScanGroupState × Option DbState
  | [], _, g, db => (true, g, db)
  | p :: rest, npts, g, db =>
    if ¬ p.verify_array then
      let e := set_error ("Positioner " ++ p.pvname ++ " array out of bounds") g db
      (false, e.1, e.2)
    else
      match npts with
      | none => verify_scan_loop rest (some p.array.length) g db
      | some n =>
        if p.array.length ≠ n then
          let e := set_error "Inconsistent positioner array length" g db
          (false, e.1, e.2)
        else verify_scan_loop rest (some n) g db

/-- `LarchStepScan.verify_scan` (lines 323-342). -/
def verify_scan (sc : ScanCfg) (g : ScanGroupState) (db : Option DbState) :
    Bool × ScanGroupState × Option DbState :=
  verify_scan_loop sc.positioners none g db

/-- The pure core of `verify_scan`: `none` on success, or the error
message it would report.  `run` branches on this; the lemma
`verify_scan_fst` ties it to the effectful translation. -/
def verifyErrorLoop : List Positioner → Option ℕ → Option String
  | [], _ => none
  | p :: rest, npts =>
    if ¬ p.verify_array then
      some ("Positioner " ++ p.pvname ++ " array out of bounds")
    else
      match npts with
      | none => verifyErrorLoop rest (some p.array.length)
      | some n =>
        if p.array.length ≠ n then some "Inconsistent positioner array length"
        else verifyErrorLoop rest (some n)

/-- Pure verification result for a whole scan. -/
def ScanCfg.verifyError (sc : ScanCfg) : Option String :=
  verifyErrorLoop sc.positioners none

/-- The instance attributes defined by `LarchStepScan.__init__`
(lines 185-226).  Notably `_scangroup` is defined but `_scan` is not. -/
def initAttrs : List String :=
  ["pos_settle_time", "det_settle_time", "pos_maxmove_time",
   "det_maxcount_time", "_larch", "_scangroup", "scandb", "dwelltime",
   "comments", "filename", "auto_increment", "filetype", "scantype",
   "verified", "abort", "pause", "inittime", "looptime", "exittime",
   "runtime", "cpt", "npts", "complete", "debug", "message_points",
   "extra_pvs", "positioners", "triggers", "counters", "detectors",
   "breakpoints", "at_break_methods", "pre_scan_methods",
   "post_scan_methods", "pos_actual"]

/-- Python instance-attribute lookup: `self.<name>` raises
`AttributeError` when the instance never defined the attribute. -/
def readAttr (attrs : List String) (name : String) : Except PyErr Unit :=
  if name ∈ attrs then Except.ok () else Except.error PyErr.attributeError

/-- `LarchStepScan.look_for_interrupts` (lines 430-447) in the
`scandb is None` branch: each of the three `isset(key)` calls evaluates
`getattr(self._scan, key)`, whose `self._scan` lookup raises when the
attribute is absent.  Were `_scan` present, `isset` falls off its end
and returns `None`, so `self.abort` would be falsy. -/
def look_for_interrupts_nodb (attrs : List String) : Except PyErr Bool := do
  _ ← readAttr attrs "_scan"
  _ ← readAttr attrs "_scan"
  _ ← readAttr attrs "_scan"
  Except.ok false

/-- `LarchStepScan.clear_interrupts` (lines 449-466) in the
`scandb is None` branch: each `doset(key, 0)` evaluates
`setattr(self._scan, key, 0)`, whose `self._scan` lookup raises when
the attribute is absent. -/
def clear_interrupts_nodb (attrs : List String) : Except PyErr Unit := do
  _ ← readAttr attrs "_scan"
  _ ← readAttr attrs "_scan"
  _ ← readAttr attrs "_scan"
  Except.ok ()

/-- `LarchStepScan.clear_interrupts` (lines 449-466).  With a scan
database, the three request flags are reset through `set_info`; without
one, the `doset` helper's `self._scan` lookup decides the outcome. -/
def clear_interrupts (attrs : List String) :
    Option DbState → Except PyErr (Option DbState)
  | none =>
    match clear_interrupts_nodb attrs with
    | Except.error e => Except.error e
    | Except.ok _ => Except.ok none
  | some d =>
    Except.ok (some (((d.set_info "request_abort" "0").set_info
      "request_pause" "0").set_info "request_resume" "0"))

/-- The calls the engine makes on hardware actors and on the output
sink, in program order.  `writeData` records a `datafile.write_data`
call with its `breakpoint` argument and `close_file` flag; the move
events carry the positioner's index in `self.positioners`. -/
inductive Event
  | moveToStart (pidx : ℕ) (wait : Bool)
  | moveToPos (pidx : ℕ) (pt : ℕ)
  | moveTo (pidx : ℕ) (val : ℚ) (wait : Bool)
  | trigStart (tidx : ℕ)
  | writeData (breakpoint : ℤ) (closeFile : Bool)
deriving DecidableEq, Repr

/-- The site, within one iteration of the point loop, of the
interrupt check that first observes an abort request and breaks out of
the loop: line 588 (after the move wait), line 595 (after the
positioner settle), line 611 (after the trigger wait), line 634 (after
the detector settle), or line 655 (inside the breakpoint block).  An
abort request that arrives earlier in the iteration (at line 570 or
during the pause / move-wait loops) still lets the move commands go out
and is re-observed at line 588, so it is modelled as `afterMove`. -/
inductive AbortSite
  | afterMove
  | afterSettle
  | afterTrig
  | afterDet
  | atBreak
deriving DecidableEq, Repr

/-- The external inputs consumed by one iteration of the point loop:
where (if anywhere) an abort request is observed, each trigger's
`runtime` at the first check (line 619) and at the re-check
(lines 625-627), and the positioner readbacks recorded into
`pos_actual` (line 646). -/
structure PointEnv where
  abortAt : Option AbortSite
  runtimes1 : List ℚ
  runtimes2 : List ℚ
  readings : List ℚ
deriving DecidableEq, Repr

/-- The mutable state of the point loop: the loop index `i`, the
1-based current point `cpt`, the `self.abort` flag, the accumulated
`pos_actual` records and the event trace so far. -/
structure LoopSt where
  i : ℤ
  cpt : ℕ
  abort : Bool
  pos_actual : List (List ℚ)
  events : List Event
deriving DecidableEq, Repr

/-- The move commands issued at the top of point `i`
(`[p.move_to_pos(i) for p in self.positioners]`, line 576). -/
def movesToPos (sc : ScanCfg) (i : ℕ) : List Event :=
  (List.range sc.positioners.length).map (fun k => Event.moveToPos k i)

/-- The trigger starts of line 600. -/
def trigStarts (sc : ScanCfg) : List Event :=
  (List.range sc.triggers.length).map (fun k => Event.trigStart k)

/-- The `point_ok` flag as computed by lines 615-629.  The first check
(line 619) sits after the `for trig in self.triggers` loop and so reads
the runtime of the LAST trigger only; only when that one is short does
the re-check of lines 622-627 poll again and examine every trigger. -/
def pointOkCalc (sc : ScanCfg) (e : PointEnv) : Bool :=
  if sc.trigger_has_stop then
    match e.runtimes1.getLast? with
    | some r =>
      if r < sc.min_dwelltime / 2 then
        e.runtimes2.all (fun r2 => !(decide (r2 < sc.min_dwelltime / 2)))
      else true
    | none => true
  else true

/-- One iteration of the body of the point loop (lines 567-663) at a
valid index `i < npts`, returning the new state and whether a `break`
left the loop.  Counter reads, dwell pushes and the messenger update
have no bearing on the claims and leave no trace; the
`except KeyboardInterrupt` handler is not modelled (it only fires on an
operator-initiated asynchronous exception). -/
def doPoint (sc : ScanCfg) (i : ℕ) (e : PointEnv) (s : LoopSt) :
    LoopSt × Bool :=
  let s1 : LoopSt :=
    { s with cpt := i + 1, events := s.events ++ movesToPos sc i }
  if e.abortAt = some AbortSite.afterMove then ({ s1 with abort := true }, true)
  else if e.abortAt = some AbortSite.afterSettle then
    ({ s1 with abort := true }, true)
  else
    let s2 : LoopSt := { s1 with events := s1.events ++ trigStarts sc }
    if e.abortAt = some AbortSite.afterTrig then ({ s2 with abort := true }, true)
    else
      let pok := pointOkCalc sc e
      if e.abortAt = some AbortSite.afterDet then
        ({ s2 with abort := true }, true)
      else
        let s3 : LoopSt :=
          { s2 with pos_actual := s2.pos_actual ++ [e.readings] }
        if i ∈ sc.breakpoints then
          let s4 : LoopSt :=
            { s3 with events := s3.events ++ [Event.writeData (i : ℤ) false] }
          if e.abortAt = some AbortSite.atBreak then
            ({ s4 with abort := true }, true)
          else ({ s4 with i := if pok then s4.i else s4.i - 1 }, false)
        else ({ s3 with i := if pok then s3.i else s3.i - 1 }, false)

/-- The point loop (`while not self.abort:` ... lines 563-663).  The
environment list supplies one `PointEnv` per executed iteration; when
it is exhausted before the loop exits on its own the model stops with
`false` as second component (insufficient fuel — the theorems below
always provide enough).  A normal exit (abort observed, or `i >= npts`)
returns `true`. -/
def scanLoop (sc : ScanCfg) : List PointEnv → LoopSt → LoopSt × Bool
  | [], s =>
    if s.abort then (s, true)
    else if (sc.npts : ℤ) ≤ s.i + 1 then ({ s with i := s.i + 1 }, true)
    else (s, false)
  | e :: rest, s =>
    if s.abort then (s, true)
    else if (sc.npts : ℤ) ≤ s.i + 1 then ({ s with i := s.i + 1 }, true)
    else
      let p := doPoint sc (s.i + 1).toNat e { s with i := s.i + 1 }
      if p.2 then (p.1, true) else scanLoop sc rest p.1

/-- The environment of one `run` invocation: per-iteration inputs, the
file name the datafile collaborator resolves to (auto-increment), the
outcome of the pre- and post-scan hook batches (`check_outputs` raises
`Warning` when any hook output is truthy), and the wall-clock
timestamps taken at the four phase boundaries. -/
structure RunEnv where
  points : List PointEnv
  resolvedName : String
  preOk : Bool
  postOk : Bool
  ts_start : ℚ
  ts_init : ℚ
  ts_loop : ℚ
  ts_exit : ℚ
deriving DecidableEq, Repr

/-- The observable outcome of `LarchStepScan.run`: the value returned
(`None` on the verify-failure early return), the uncaught exception if
one escaped, the event trace, and the fields of the scan object that
the claims talk about. -/
structure RunOut where
  retval : Option String
  err : Option PyErr
  events : List Event
  pos_actual : List (List ℚ)
  cpt : ℕ
  npts : ℕ
  complete : Bool
  abort : Bool
  inittime : ℚ
  looptime : ℚ
  exittime : ℚ
  runtime : ℚ
  filename : String
deriving DecidableEq, Repr

/-- `[p.move_to_start(wait=w) for p in self.positioners]`
(lines 496 and 555). -/
def startMoves (sc : ScanCfg) (w : Bool) : List Event :=
  (List.range sc.positioners.length).map (fun k => Event.moveToStart k w)

/-- The restore moves of lines 673-674: each positioner is sent back,
without waiting, to the `current()` reading captured on line 493 before
any motion. -/
def restoreMoves (sc : ScanCfg) : List Event :=
  (List.range sc.positioners.length).map
    (fun k => Event.moveTo k (sc.positioners.getD k default).current0 false)

/-- Everything the engine tells the actors and the sink before the
point loop starts: the non-blocking moves to start (line 496), the
initial checkpoint (`write_data(breakpoint=0)`, line 502) and the
blocking moves to start (line 555). -/
def preLoopEvents (sc : ScanCfg) : List Event :=
  startMoves sc false ++ [Event.writeData 0 false] ++ startMoves sc true

/-- Loop state on entry to the point loop: `i = -1` (line 559),
`cpt = 0` (line 548), `pos_actual` cleared by `clear_data` (line 506),
interrupt flags cleared (line 491). -/
def initLoopSt (sc : ScanCfg) : LoopSt :=
  { i := -1, cpt := 0, abort := false, pos_actual := [],
    events := preLoopEvents sc }

/-- The point loop as `run` executes it. -/
def runLoopResult (sc : ScanCfg) (env : RunEnv) : LoopSt × Bool :=
  scanLoop sc env.points (initLoopSt sc)

/-- `LarchStepScan.run` (lines 468-699).  Control flow translated:
verification failure returns `None` before any motion (lines 487-490);
`clear_interrupts` on line 491 raises `AttributeError` when no scan
database is configured; a truthy pre-scan hook output raises `Warning`
(lines 538-539) before the loop; after the loop the engine issues the
restore moves, writes the closing checkpoint
(`write_data(breakpoint=-1, close_file=True, clear=False)`, line 676),
resets `self.abort`, runs the post-scan hooks (a truthy output raises
`Warning`), marks the scan complete, closes out the phase timings and
returns `self.datafile.filename`. -/
def run (sc : ScanCfg) (db : Option DbState) (env : RunEnv) : RunOut :=
  match sc.verifyError with
  | some _ =>
    { retval := none, err := none, events := [], pos_actual := [], cpt := 0,
      npts := 0, complete := false, abort := false, inittime := 0,
      looptime := 0, exittime := 0, runtime := 0, filename := sc.filename }
  | none =>
    match clear_interrupts initAttrs db with
    | Except.error e =>
      { retval := none, err := some e, events := [], pos_actual := [],
        cpt := 0, npts := 0, complete := false, abort := false,
        inittime := 0, looptime := 0, exittime := 0, runtime := 0,
        filename := sc.filename }
    | Except.ok _ =>
      if env.preOk then
        let ls := (runLoopResult sc env).1
        let evs := ls.events ++ restoreMoves sc ++ [Event.writeData (-1) true]
        if env.postOk then
          { retval := some env.resolvedName, err := none, events := evs,
            pos_actual := ls.pos_actual, cpt := ls.cpt, npts := sc.npts,
            complete := true, abort := false,
            inittime := env.ts_init - env.ts_start,
            looptime := env.ts_loop - env.ts_init,
            exittime := env.ts_exit - env.ts_loop,
            runtime := env.ts_exit - env.ts_start,
            filename := env.resolvedName }
        else
          { retval := none, err := some PyErr.warningErr, events := evs,
            pos_actual := ls.pos_actual, cpt := ls.cpt, npts := sc.npts,
            complete := false, abort := false,
            inittime := env.ts_init - env.ts_start,
            looptime := env.ts_loop - env.ts_init,
            exittime := 0, runtime := 0, filename := env.resolvedName }
      else
        { retval := none, err := some PyErr.warningErr,
          events := startMoves sc false ++ [Event.writeData 0 false],
          pos_actual := [], cpt := 0, npts := 0, complete := false,
          abort := false, inittime := 0, looptime := 0, exittime := 0,
          runtime := 0, filename := env.resolvedName }

/-- The remaining-time estimate computed per point by
`LarchStepScan._messenger` (lines 368-374):
`(npts-cpt)*(pos_settle_time+det_settle_time)` plus
`dwelltime[cpt:].sum()` for a per-point dwell list, or
`(npts-cpt)*dwelltime` for a scalar dwell. -/
def scanTimeEstimate (posSettle detSettle : ℚ) (dw : Dwell)
    (npts cpt : ℕ) : ℚ :=
  ((npts : ℚ) - (cpt : ℚ)) * (posSettle + detSettle) +
  match dw with
  | .const d => ((npts : ℚ) - (cpt : ℚ)) * d
  | .perPoint ds => (ds.drop cpt).sum

namespace ScanMessenger

/-- Number of seconds the messenger thread waits for `.cpt` to change
before exiting (class attribute, line 148). -/
def timeout : ℚ := 3600

/-- One observation of the shared `.cpt` cell by the messenger thread:
the value seen (`none` is the `None` sentinel) and the wall-clock time
of the poll. -/
structure Obs where
  value : Option ℤ
  time : ℚ
deriving DecidableEq, Repr

/-- `ScanMessenger.run`'s loop state: `last_point` and the time `t0` of
the last observed change (lines 167-168). -/
structure MsgSt where
  last_point : Option ℤ
  t0 : ℚ
deriving DecidableEq, Repr

/-- One turn of the `while True` loop of `ScanMessenger.run`
(lines 170-179): on a change, record it, reset `t0` and invoke the user
callback unless the new value is the `None` sentinel; then exit when
the value is the sentinel or no change has been seen for more than
`timeout` seconds.  The middle component is the point number the
callback was invoked with (the callback also receives the scan object,
held fixed by the thread). -/
def step (s : MsgSt) (o : Obs) : MsgSt × Option ℤ × Bool :=
  let s' : MsgSt := if o.value ≠ s.last_point then ⟨o.value, o.time⟩ else s
  let call : Option ℤ := if o.value ≠ s.last_point then o.value else none
  let term : Bool :=
    decide (o.value = none) || decide (timeout < o.time - s'.t0)
  (s', call, term)

/-- `ScanMessenger.run` (lines 161-179) over a finite schedule of
observations: returns the point numbers the callback was invoked with,
and whether the loop returned within the schedule. -/
def run (s : MsgSt) : List Obs → List ℤ × Bool
  | [] => ([], false)
  | o :: rest =>
    let st := step s o
    let here : List ℤ := match st.2.1 with | some v => [v] | none => []
    if st.2.2 then (here, true)
    else
      let r := run st.1 rest
      (here ++ r.1, r.2)

end ScanMessenger

/-- Checkpoint writes are the `write_data` calls in the trace. -/
def Event.isWrite : Event → Bool
  | .writeData _ _ => true
  | _ => false

/-- The subtrace of `write_data` calls. -/
def writesOf (evs : List Event) : List Event :=
  evs.filter Event.isWrite

/-- The breakpoint checkpoint writes an untroubled loop performs from
point `n` on: one per index in `[n, npts)` that lies in the breakpoint
list, in index order. -/
def bpWrites (sc : ScanCfg) (n : ℕ) : List Event :=
  ((List.range' n (sc.npts - n)).filter
      (fun i => decide (i ∈ sc.breakpoints))).map
    (fun i => Event.writeData (i : ℤ) false)

/-- Non-negativity of a dwell policy: the scalar, or every entry of
the per-point list. -/
def Dwell.nonneg : Dwell → Prop
  | .const d => 0 ≤ d
  | .perPoint ds => ∀ x ∈ ds, 0 ≤ x

/- Concrete scans and environments used by witnesses and
counterexamples. -/

/-- A three-point, one-positioner scan with no triggers. -/
def demoScan : ScanCfg :=
  ⟨[⟨"P1", [0, 1, 2], 5, none, none⟩], [], [], Dwell.const 1, 1, 1, "scan.001"⟩

/-- An untroubled point: no interrupt, readback 10. -/
def ptOk : PointEnv := ⟨none, [], [], [10]⟩

/-- A point whose iteration observes an abort request at the line-588
check, after the move commands went out. -/
def ptAbortMove : PointEnv := ⟨some AbortSite.afterMove, [], [], [10]⟩

/-- Environment for a full, untroubled run of `demoScan`. -/
def demoEnvFull : RunEnv := ⟨[ptOk, ptOk, ptOk], "scan.001", true, true, 0, 1, 2, 3⟩

/-- Environment for a run of `demoScan` aborted while processing the
second point, after one point was recorded. -/
def demoEnvAbort : RunEnv := ⟨[ptOk, ptAbortMove], "scan.001", true, true, 0, 1, 2, 3⟩

/-- A one-point scan with a stoppable trigger. -/
def retryScan : ScanCfg :=
  ⟨[⟨"P1", [0], 5, none, none⟩], [⟨true⟩], [], Dwell.const 1, 1, 1, "s"⟩

/-- The trigger's runtime reads 0 at both checks: the point is flagged
not-ok and retried. -/
def ptShort : PointEnv := ⟨none, [0], [0], [7]⟩

/-- Environment for a run of `retryScan` whose first attempt is
flagged not-ok and whose retry succeeds. -/
def retryEnv : RunEnv := ⟨[ptShort, ptOk], "s", true, true, 0, 1, 2, 3⟩

/-- A one-point scan with two stoppable triggers. -/
def twoTrigScan : ScanCfg :=
  ⟨[⟨"P1", [0], 5, none, none⟩], [⟨true⟩, ⟨true⟩], [], Dwell.const 1, 1, 1, "s"⟩

/-- The first trigger's runtime reads 0 (suspiciously short), the last
trigger's reads 10. -/
def ptFirstShort : PointEnv := ⟨none, [0, 10], [0, 10], [7]⟩

/-- Environment for a run of `twoTrigScan` over its single point. -/
def twoTrigEnv : RunEnv := ⟨[ptFirstShort], "s", true, true, 0, 1, 2, 3⟩

/-- A two-point scan with a breakpoint at index 1. -/
def bpAbortScan : ScanCfg :=
  ⟨[⟨"P1", [0, 1], 5, none, none⟩], [], [1], Dwell.const 1, 1, 1, "s"⟩

/-- Environment for a run of `bpAbortScan` aborted during its first
point. -/
def bpAbortEnv : RunEnv := ⟨[ptAbortMove], "s", true, true, 0, 1, 2, 3⟩

/-- Two positioners with arrays of different lengths. -/
def mismatchScan : ScanCfg :=
  ⟨[⟨"A", [0, 1], 0, none, none⟩, ⟨"B", [0], 0, none, none⟩], [], [],
   Dwell.const 1, 1, 1, "s"⟩

/- Helper lemmas. -/

/-- Dropping more of a list of non-negative rationals can only lower
the sum. -/
theorem drop_sum_le_drop_sum (ds : List ℚ) (h : ∀ x ∈ ds, 0 ≤ x)
    {a b : ℕ} (hab : a ≤ b) : (ds.drop b).sum ≤ (ds.drop a).sum := by
  have h1 : ds.drop b = (ds.drop a).drop (b - a) := by
    rw [List.drop_drop]
    congr 1
    omega
  rw [h1]
  exact List.Sublist.sum_le_sum (List.drop_sublist _ _)
    (fun x hx => h x ((List.drop_sublist a ds).subset hx))

/-- C8: For every dwell policy (a scalar dwell, or a per-point
sequence with non-negative entries) and fixed non-negative settle
times, the estimated remaining time computed per point by `_messenger`
is monotonically non-increasing as the current point `cpt` increases,
all else equal. -/
theorem remaining_time_monotone (posSettle detSettle : ℚ) (dw : Dwell)
    (npts cpt cpt' : ℕ) (hps : 0 ≤ posSettle) (hds : 0 ≤ detSettle)
    (hcc : cpt ≤ cpt') (_hub : cpt' ≤ npts) (hdw : dw.nonneg) :
    scanTimeEstimate posSettle detSettle dw npts cpt' ≤
      scanTimeEstimate posSettle detSettle dw npts cpt := by
  have hsub : ((npts : ℚ) - (cpt' : ℚ)) ≤ ((npts : ℚ) - (cpt : ℚ)) := by
    have := (Nat.cast_le (α := ℚ)).mpr hcc
    linarith
  have h1 : ((npts : ℚ) - (cpt' : ℚ)) * (posSettle + detSettle) ≤
      ((npts : ℚ) - (cpt : ℚ)) * (posSettle + detSettle) :=
    mul_le_mul_of_nonneg_right hsub (by linarith)
  cases dw with
  | const d =>
    have hd : (0 : ℚ) ≤ d := hdw
    have h2 : ((npts : ℚ) - (cpt' : ℚ)) * d ≤ ((npts : ℚ) - (cpt : ℚ)) * d :=
      mul_le_mul_of_nonneg_right hsub hd
    simpa [scanTimeEstimate] using add_le_add h1 h2
  | perPoint ds =>
    have h2 := drop_sum_le_drop_sum ds hdw hcc
    simpa [scanTimeEstimate] using add_le_add h1 h2

/-- Witness for `remaining_time_monotone` at a concrete dwell policy
and point pair. -/
theorem remaining_time_monotone_w :
    scanTimeEstimate 1 1 (Dwell.const 2) 5 3 ≤
      scanTimeEstimate 1 1 (Dwell.const 2) 5 1 :=
  remaining_time_monotone 1 1 (Dwell.const 2) 5 1 3 (by norm_num)
    (by norm_num) (by norm_num) (by norm_num)
    (by simp [Dwell.nonneg])

/-- C9: The messenger thread's loop invokes the user callback exactly
on observed changes of the shared `.cpt` cell to a non-sentinel value
(passing the point number; the scan context is held by the thread), and
it terminates when the cell reads the `None` sentinel, or when the cell
has not changed for longer than the inactivity timeout, whose default
is one hour (3600 seconds). -/
theorem messenger_contract :
    ScanMessenger.timeout = 3600 ∧
    (∀ (s : ScanMessenger.MsgSt) (o : ScanMessenger.Obs) (v : ℤ),
      (ScanMessenger.step s o).2.1 = some v ↔
        o.value = some v ∧ o.value ≠ s.last_point) ∧
    (∀ (s : ScanMessenger.MsgSt) (obs : List ScanMessenger.Obs),
      (∃ o ∈ obs, o.value = none) → (ScanMessenger.run s obs).2 = true) ∧
    (∀ (s : ScanMessenger.MsgSt) (obs : List ScanMessenger.Obs),
      (∀ o ∈ obs, o.value = s.last_point) →
      (∃ o ∈ obs, ScanMessenger.timeout < o.time - s.t0) →
      (ScanMessenger.run s obs).2 = true) := by
  refine ⟨rfl, ?_, ?_, ?_⟩
  · intro s o v
    by_cases h : o.value = s.last_point
    · simp [ScanMessenger.step, h]
    · simp [ScanMessenger.step, h]
  · intro s obs
    induction obs generalizing s with
    | nil => rintro ⟨o, ho, -⟩; cases ho
    | cons o rest ih =>
      rintro ⟨w, hw, hwv⟩
      by_cases hterm : (ScanMessenger.step s o).2.2 = true
      · simp [ScanMessenger.run, hterm]
      · have hov : o.value ≠ none := by
          intro hn
          exact hterm (by simp [ScanMessenger.step, hn])
        rcases List.mem_cons.mp hw with rfl | hw'
        · exact absurd hwv hov
        · simp only [ScanMessenger.run, hterm, if_false, Bool.false_eq_true]
          exact ih _ ⟨w, hw', hwv⟩
  · intro s obs
    induction obs generalizing s with
    | nil => rintro - ⟨o, ho, -⟩; cases ho
    | cons o rest ih =>
      intro hsame hex
      have hov : o.value = s.last_point := hsame o (List.mem_cons_self o rest)
      by_cases hterm : (ScanMessenger.step s o).2.2 = true
      · simp [ScanMessenger.run, hterm]
      · have hst : (ScanMessenger.step s o).1 = s := by
          simp [ScanMessenger.step, hov]
        have hnotime : ¬ ScanMessenger.timeout < o.time - s.t0 := by
          intro hlt
          exact hterm (by simp [ScanMessenger.step, hov, hlt])
        rcases hex with ⟨w, hw, hwt⟩
        rcases List.mem_cons.mp hw with rfl | hw'
        · exact absurd hwt hnotime
        · simp only [ScanMessenger.run, hterm, if_false, Bool.false_eq_true]
          rw [hst]
          exact ih s (fun x hx => hsame x (List.mem_cons_of_mem _ hx)) ⟨w, hw', hwt⟩

/-- Witness for `messenger_contract`: one schedule terminated by the
sentinel, one terminated by inactivity. -/
theorem messenger_contract_w :
    (ScanMessenger.run ⟨some 0, 0⟩ [⟨some 1, 1⟩, ⟨none, 2⟩]).2 = true ∧
    (ScanMessenger.run ⟨some 0, 0⟩ [⟨some 0, 4000⟩]).2 = true := by
  constructor
  · exact messenger_contract.2.2.1 ⟨some 0, 0⟩ [⟨some 1, 1⟩, ⟨none, 2⟩]
      ⟨⟨none, 2⟩, by simp, rfl⟩
  · exact messenger_contract.2.2.2 ⟨some 0, 0⟩ [⟨some 0, 4000⟩]
      (by intro o ho; simp at ho; simp [ho])
      ⟨⟨some 0, 4000⟩, by simp, by norm_num [ScanMessenger.timeout]⟩

/-- C10: When `run` finishes normally, the recorded phase timings
satisfy `runtime = inittime + looptime + exittime` exactly (times are
modelled as exact rationals), and `run` returns the datafile's final
filename. -/
theorem run_timing_identity (sc : ScanCfg) (d : DbState) (env : RunEnv)
    (hv : sc.verifyError = none) (hpre : env.preOk = true)
    (hpost : env.postOk = true) :
    (run sc (some d) env).runtime =
      (run sc (some d) env).inittime + (run sc (some d) env).looptime +
        (run sc (some d) env).exittime ∧
    (run sc (some d) env).retval = some ((run sc (some d) env).filename) ∧
    (run sc (some d) env).filename = env.resolvedName := by
  refine ⟨?_, ?_, ?_⟩ <;>
    simp only [run, hv, clear_interrupts, hpre, hpost, if_true]
  ring

/-- Witness for `run_timing_identity` at the untroubled demo run. -/
theorem run_timing_identity_w :
    (run demoScan (some ⟨[]⟩) demoEnvFull).runtime =
      (run demoScan (some ⟨[]⟩) demoEnvFull).inittime +
        (run demoScan (some ⟨[]⟩) demoEnvFull).looptime +
        (run demoScan (some ⟨[]⟩) demoEnvFull).exittime ∧
    (run demoScan (some ⟨[]⟩) demoEnvFull).retval =
      some ((run demoScan (some ⟨[]⟩) demoEnvFull).filename) ∧
    (run demoScan (some ⟨[]⟩) demoEnvFull).filename = "scan.001" :=
  run_timing_identity demoScan ⟨[]⟩ demoEnvFull (by decide) rfl rfl

/-- C5: `_scan` is not among the attributes the constructor defines,
so with no scan database configured, `look_for_interrupts` and
`clear_interrupts` raise `AttributeError` through their `isset`/`doset`
helpers, and `run` — which calls `clear_interrupts` right after a
successful verification, before any motion — can never complete
without a configured scan database. -/
theorem no_scandb_attribute_error (sc : ScanCfg) (env : RunEnv) :
    "_scan" ∉ initAttrs ∧
    look_for_interrupts_nodb initAttrs = Except.error PyErr.attributeError ∧
    clear_interrupts_nodb initAttrs = Except.error PyErr.attributeError ∧
    (run sc none env).complete = false ∧
    (sc.verifyError = none →
      (run sc none env).err = some PyErr.attributeError ∧
      (run sc none env).events = []) := by
  have hmem : "_scan" ∉ initAttrs := by decide
  have hclear : clear_interrupts initAttrs (none : Option DbState) =
      Except.error PyErr.attributeError := by rfl
  refine ⟨hmem, by rfl, by rfl, ?_, ?_⟩
  · cases hv : sc.verifyError with
    | some m => simp [run, hv]
    | none => simp [run, hv, hclear]
  · intro hv
    simp [run, hv, hclear]

/-- Witness for `no_scandb_attribute_error` at the demo scan, whose
verification succeeds. -/
theorem no_scandb_attribute_error_w :
    (run demoScan none demoEnvFull).complete = false ∧
    (run demoScan none demoEnvFull).err = some PyErr.attributeError ∧
    (run demoScan none demoEnvFull).events = [] := by
  have h := no_scandb_attribute_error demoScan demoEnvFull
  have h2 := h.2.2.2.2 (by decide)
  exact ⟨h.2.2.2.1, h2.1, h2.2⟩

/-- The effectful `verify_scan_loop` is the pure `verifyErrorLoop`
together with a single `set_error` on failure. -/
theorem verify_scan_loop_eq (ps : List Positioner) (n : Option ℕ)
    (g : ScanGroupState) (db : Option DbState) :
    verify_scan_loop ps n g db =
      match verifyErrorLoop ps n with
      | none => (true, g, db)
      | some m => (false, { g with error_message := some m },
                   db.map (fun x => x.set_info "last_error" m)) := by
  induction ps generalizing n with
  | nil => rfl
  | cons p rest ih =>
    by_cases hva : p.verify_array = true
    · cases n with
      | none =>
        simp only [verify_scan_loop, verifyErrorLoop, hva, not_true_eq_false,
          if_false]
        exact ih _
      | some k =>
        by_cases hl : p.array.length = k
        · simp only [verify_scan_loop, verifyErrorLoop, hva, not_true_eq_false,
            if_false, ne_eq, hl, not_true_eq_false]
          exact ih _
        · simp [verify_scan_loop, verifyErrorLoop, hva, hl, set_error]
    · simp [verify_scan_loop, verifyErrorLoop, hva, set_error]

/-- C6 (amended): `verify_scan` mutates nothing on the scan object or
its actors; when it succeeds it leaves the shared scan group and scan
database untouched as well, but when it fails its `set_error` call
writes the failure message to the group's `error_message` and — when a
scan database is configured — to the database's `last_error` info, and
that is its only side effect. -/
theorem verify_scan_frame (sc : ScanCfg) (g : ScanGroupState)
    (db : Option DbState) :
    ((verify_scan sc g db).1 = true →
      (verify_scan sc g db).2.1 = g ∧ (verify_scan sc g db).2.2 = db) ∧
    (∀ m, sc.verifyError = some m →
      (verify_scan sc g db).1 = false ∧
      (verify_scan sc g db).2.1 = { g with error_message := some m } ∧
      (verify_scan sc g db).2.2 =
        db.map (fun x => x.set_info "last_error" m)) := by
  have h := verify_scan_loop_eq sc.positioners none g db
  constructor
  · intro h1
    cases hv : verifyErrorLoop sc.positioners none with
    | none =>
      rw [show verify_scan sc g db = verify_scan_loop sc.positioners none g db
        from rfl, h, hv]
      exact ⟨rfl, rfl⟩
    | some m =>
      rw [show verify_scan sc g db = verify_scan_loop sc.positioners none g db
        from rfl, h, hv] at h1
      cases h1
  · intro m hm
    rw [show verify_scan sc g db = verify_scan_loop sc.positioners none g db
      from rfl, h, show verifyErrorLoop sc.positioners none = some m from hm]
    exact ⟨rfl, rfl, rfl⟩

/-- Counterexample to C6 as stated: on `mismatchScan`, `verify_scan`
changes the scan group's `error_message` and writes `last_error` to the
scan database, so it is not free of side effects whichever result it
returns. -/
theorem verify_scan_side_effect_cex :
    (verify_scan mismatchScan ⟨none, none⟩ (some ⟨[]⟩)).2.1 ≠
      (⟨none, none⟩ : ScanGroupState) ∧
    (verify_scan mismatchScan ⟨none, none⟩ (some ⟨[]⟩)).2.2 ≠
      some (⟨[]⟩ : DbState) := by
  exact ⟨by decide, by decide⟩

/-- Witness for `verify_scan_frame`: the success case at the demo scan
leaves group and database untouched, and the failure case at the
mismatched scan shows the exact effect. -/
theorem verify_scan_frame_w :
    ((verify_scan demoScan ⟨none, none⟩ (some ⟨[]⟩)).2.1 =
        (⟨none, none⟩ : ScanGroupState) ∧
      (verify_scan demoScan ⟨none, none⟩ (some ⟨[]⟩)).2.2 =
        some (⟨[]⟩ : DbState)) ∧
    (verify_scan mismatchScan ⟨none, none⟩ (some ⟨[]⟩)).2.1 =
      (⟨some "Inconsistent positioner array length", none⟩ : ScanGroupState) :=
  ⟨(verify_scan_frame demoScan ⟨none, none⟩ (some ⟨[]⟩)).1 (by decide),
   ((verify_scan_frame mismatchScan ⟨none, none⟩ (some ⟨[]⟩)).2
      "Inconsistent positioner array length" (by decide)).2.1⟩

/-- C7 (amended): the initial runtime check of line 619 sits after the
`for trig in self.triggers` loop and therefore reads only the LAST
trigger's runtime; a point is flagged not-ok iff that last runtime is
below half the minimum dwell AND, at the re-check after an extra poll,
some trigger's runtime is still below half the minimum dwell.  When an
iteration finishes without a `break`, the loop index is decremented
exactly when the point was flagged not-ok, so the same target point is
reprocessed. -/
theorem trigger_retry_behavior (sc : ScanCfg) (e : PointEnv) (i : ℕ)
    (s : LoopSt) (hstop : sc.trigger_has_stop = true)
    (hab : e.abortAt = none) :
    (pointOkCalc sc e = false ↔
      (∃ r, e.runtimes1.getLast? = some r ∧ r < sc.min_dwelltime / 2) ∧
      ∃ r2 ∈ e.runtimes2, r2 < sc.min_dwelltime / 2) ∧
    (doPoint sc i e s).2 = false ∧
    (doPoint sc i e s).1.i =
      (if pointOkCalc sc e = true then s.i else s.i - 1) := by
  refine ⟨?_, ?_⟩
  · simp only [pointOkCalc, hstop, if_true]
    cases hgl : e.runtimes1.getLast? with
    | none => simp
    | some r =>
      by_cases hr : r < sc.min_dwelltime / 2
      · simp only [hr, if_true]
        constructor
        · intro hall
          refine ⟨⟨r, rfl, hr⟩, ?_⟩
          by_contra hno
          push_neg at hno
          have hgood : e.runtimes2.all
              (fun r2 => !(decide (r2 < sc.min_dwelltime / 2))) = true := by
            rw [List.all_eq_true]
            intro x hx
            simpa using hno x hx
          rw [hgood] at hall
          cases hall
        · rintro ⟨-, x, hx, hxlt⟩
          cases h2 : e.runtimes2.all
              (fun r2 => !(decide (r2 < sc.min_dwelltime / 2))) with
          | false => rfl
          | true =>
            have := List.all_eq_true.mp h2 x hx
            simp at this
            exact absurd hxlt (not_lt.mpr this)
      · simp [hr]
  · by_cases hbp : i ∈ sc.breakpoints
    · by_cases hok : pointOkCalc sc e = true <;>
        simp [doPoint, hab, hbp, hok]
    · by_cases hok : pointOkCalc sc e = true <;>
        simp [doPoint, hab, hbp, hok]

/-- The not-ok outcome of `retryScan`'s first attempt: the single
(hence last) trigger's runtime reads 0 at both checks. -/
theorem pointOk_retry_short : pointOkCalc retryScan ptShort = false := by
  norm_num [pointOkCalc, retryScan, ptShort, ScanCfg.trigger_has_stop,
    ScanCfg.min_dwelltime, listMin]

/-- The untroubled point passes the runtime check (no runtimes are
even consulted: `runtimes1` is empty, so `getLast?` is `none`). -/
theorem pointOk_retry_ok : pointOkCalc retryScan ptOk = true := by
  norm_num [pointOkCalc, retryScan, ptOk, ScanCfg.trigger_has_stop,
    ScanCfg.min_dwelltime, listMin]

/-- In `twoTrigScan`, only the last trigger's runtime (10) is
consulted at the initial check, so the point passes. -/
theorem pointOk_twoTrig : pointOkCalc twoTrigScan ptFirstShort = true := by
  norm_num [pointOkCalc, twoTrigScan, ptFirstShort, ScanCfg.trigger_has_stop,
    ScanCfg.min_dwelltime, listMin]

/-- Counterexample to C7 as stated: in `twoTrigScan` the first
trigger's recorded runtime is 0, below half the minimum dwell of 1,
yet the point is not flagged not-ok (only the last trigger's runtime,
10, is consulted at the initial check), the iteration does not break,
and the loop index is not decremented, so the scan advances past the
point instead of retrying it. -/
theorem trigger_check_last_only_cex :
    twoTrigScan.trigger_has_stop = true ∧
    ptFirstShort.runtimes1.head? = some 0 ∧
    (0 : ℚ) < twoTrigScan.min_dwelltime / 2 ∧
    pointOkCalc twoTrigScan ptFirstShort = true ∧
    (doPoint twoTrigScan 0 ptFirstShort (initLoopSt twoTrigScan)).2 = false ∧
    (doPoint twoTrigScan 0 ptFirstShort
        { initLoopSt twoTrigScan with i := 0 }).1.i = 0 := by
  have habs : ptFirstShort.abortAt = none := rfl
  have hbp : twoTrigScan.breakpoints = [] := rfl
  refine ⟨rfl, rfl, by norm_num [twoTrigScan, ScanCfg.min_dwelltime, listMin],
    pointOk_twoTrig, ?_, ?_⟩ <;>
    simp [doPoint, habs, hbp, pointOk_twoTrig]

/-- Witness for `trigger_retry_behavior`: in `retryScan` the single
(hence last) trigger's runtime is 0 at both checks, the point is
flagged not-ok and the loop index is decremented. -/
theorem trigger_retry_behavior_w :
    pointOkCalc retryScan ptShort = false ∧
    (doPoint retryScan 0 ptShort ⟨0, 0, false, [], []⟩).2 = false ∧
    (doPoint retryScan 0 ptShort ⟨0, 0, false, [], []⟩).1.i = -1 := by
  have h := trigger_retry_behavior retryScan ptShort 0 ⟨0, 0, false, [], []⟩
    rfl rfl
  refine ⟨pointOk_retry_short, h.2.1, ?_⟩
  rw [h.2.2]
  simp [pointOk_retry_short]

/-- The events one non-interrupted iteration at point `i` adds to the
trace: the per-point moves, the trigger starts, and — when `i` is a
breakpoint — the checkpoint write. -/
def pointEvents (sc : ScanCfg) (i : ℕ) : List Event :=
  movesToPos sc i ++ trigStarts sc ++
    (if i ∈ sc.breakpoints then [Event.writeData (i : ℤ) false] else [])

/-- An iteration that observes no abort request does not break out of
the loop. -/
theorem doPoint_none_not_broke (sc : ScanCfg) (i : ℕ) (e : PointEnv)
    (s : LoopSt) (hab : e.abortAt = none) : (doPoint sc i e s).2 = false := by
  by_cases hbp : i ∈ sc.breakpoints <;> simp [doPoint, hab, hbp]

/-- What an iteration that does not break does: it records exactly one
`pos_actual` entry, decrements the index exactly when the point was
flagged not-ok, leaves the abort flag alone and appends the point's
events. -/
theorem doPoint_not_broke (sc : ScanCfg) (i : ℕ) (e : PointEnv) (s : LoopSt)
    (h : (doPoint sc i e s).2 = false) :
    (doPoint sc i e s).1.pos_actual = s.pos_actual ++ [e.readings] ∧
    (doPoint sc i e s).1.i =
      (if pointOkCalc sc e = true then s.i else s.i - 1) ∧
    (doPoint sc i e s).1.abort = s.abort ∧
    (doPoint sc i e s).1.cpt = i + 1 ∧
    (doPoint sc i e s).1.events = s.events ++ pointEvents sc i := by
  rcases habs : e.abortAt with - | site
  · by_cases hbp : i ∈ sc.breakpoints <;>
      simp [doPoint, habs, hbp, pointEvents]
  · cases site <;> by_cases hbp : i ∈ sc.breakpoints <;>
      simp [doPoint, habs, hbp, pointEvents] at h ⊢

/-- What an iteration that breaks does: it sets the abort flag, leaves
the index where it was and records at most one `pos_actual` entry. -/
theorem doPoint_broke (sc : ScanCfg) (i : ℕ) (e : PointEnv) (s : LoopSt)
    (h : (doPoint sc i e s).2 = true) :
    (doPoint sc i e s).1.abort = true ∧
    (doPoint sc i e s).1.i = s.i ∧
    (doPoint sc i e s).1.pos_actual.length ≤ s.pos_actual.length + 1 := by
  rcases habs : e.abortAt with - | site
  · rw [doPoint_none_not_broke sc i e s habs] at h
    cases h
  · cases site <;> by_cases hbp : i ∈ sc.breakpoints <;>
      simp [doPoint, habs, hbp] at h ⊢

/-- Invariant of the point loop when no point is flagged not-ok: the
number of recorded `pos_actual` entries never exceeds `npts`, and a
loop that exits on its own (not by abort, with enough environment)
records exactly `npts` entries. -/
theorem scanLoop_len (sc : ScanCfg) :
    ∀ (envs : List PointEnv) (s : LoopSt),
      (∀ e ∈ envs, pointOkCalc sc e = true) →
      s.abort = false →
      s.pos_actual.length = (s.i + 1).toNat →
      s.i + 1 ≤ (sc.npts : ℤ) →
      (-1 : ℤ) ≤ s.i →
      (scanLoop sc envs s).1.pos_actual.length ≤ sc.npts ∧
      ((scanLoop sc envs s).2 = true →
        (scanLoop sc envs s).1.abort = false →
        (scanLoop sc envs s).1.pos_actual.length = sc.npts) := by
  intro envs
  induction envs with
  | nil =>
    intro s hok hab hlen hle hneg
    by_cases hnp : (sc.npts : ℤ) ≤ s.i + 1
    · simp only [scanLoop]
      rw [if_neg (by simp [hab]), if_pos hnp]
      exact ⟨show s.pos_actual.length ≤ sc.npts by omega,
        fun _ _ => show s.pos_actual.length = sc.npts by omega⟩
    · simp only [scanLoop]
      rw [if_neg (by simp [hab]), if_neg hnp]
      exact ⟨show s.pos_actual.length ≤ sc.npts by omega,
        fun hx => Bool.noConfusion hx⟩
  | cons e rest ih =>
    intro s hok hab hlen hle hneg
    by_cases hnp : (sc.npts : ℤ) ≤ s.i + 1
    · simp only [scanLoop]
      rw [if_neg (by simp [hab]), if_pos hnp]
      exact ⟨show s.pos_actual.length ≤ sc.npts by omega,
        fun _ _ => show s.pos_actual.length = sc.npts by omega⟩
    · simp only [scanLoop]
      rw [if_neg (by simp [hab]), if_neg hnp]
      cases hbk : (doPoint sc (s.i + 1).toNat e { s with i := s.i + 1 }).2 with
      | true =>
        obtain ⟨ha, -, hl⟩ := doPoint_broke sc _ e _ hbk
        simp only [hbk, if_true]
        have hl' : (doPoint sc (s.i + 1).toNat e
            { s with i := s.i + 1 }).1.pos_actual.length ≤
            s.pos_actual.length + 1 := hl
        refine ⟨by omega, fun _ habort => ?_⟩
        rw [ha] at habort
        cases habort
      | false =>
        obtain ⟨hpa, hi, ha, -, -⟩ := doPoint_not_broke sc _ e _ hbk
        simp only [hbk, Bool.false_eq_true, if_false]
        have hpok : pointOkCalc sc e = true := hok e (List.mem_cons_self e rest)
        have hi' : (doPoint sc (s.i + 1).toNat e
            { s with i := s.i + 1 }).1.i = s.i + 1 := by
          rw [hi, hpok]
          simp
        have hpa' : (doPoint sc (s.i + 1).toNat e
            { s with i := s.i + 1 }).1.pos_actual =
            s.pos_actual ++ [e.readings] := hpa
        have ha' : (doPoint sc (s.i + 1).toNat e
            { s with i := s.i + 1 }).1.abort = false := by
          rw [ha]
          exact hab
        refine ih _ (fun x hx => hok x (List.mem_cons_of_mem e hx)) ha' ?_ ?_ ?_
        · rw [hpa', hi', List.length_append]
          simp only [List.length_singleton]
          omega
        · rw [hi']
          omega
        · rw [hi']
          omega

/-- One record per completed iteration: as long as the point loop has
not ended (no abort observed and the exit check not yet reached),
every iteration it ran appended exactly one `pos_actual` record
(line 646 runs once per iteration that reaches it). -/
theorem scanLoop_count (sc : ScanCfg) :
    ∀ (envs : List PointEnv) (s : LoopSt),
      (scanLoop sc envs s).2 = false →
      (scanLoop sc envs s).1.pos_actual.length =
        s.pos_actual.length + envs.length := by
  intro envs
  induction envs with
  | nil =>
    intro s hex
    simp only [scanLoop] at hex ⊢
    by_cases hab : s.abort = true
    · rw [if_pos hab] at hex
      simp at hex
    · rw [if_neg hab] at hex ⊢
      by_cases hnp : (sc.npts : ℤ) ≤ s.i + 1
      · rw [if_pos hnp] at hex
        simp at hex
      · rw [if_neg hnp] at hex ⊢
        simp
  | cons e rest ih =>
    intro s hex
    simp only [scanLoop] at hex ⊢
    by_cases hab : s.abort = true
    · rw [if_pos hab] at hex
      simp at hex
    · rw [if_neg hab] at hex ⊢
      by_cases hnp : (sc.npts : ℤ) ≤ s.i + 1
      · rw [if_pos hnp] at hex
        simp at hex
      · rw [if_neg hnp] at hex ⊢
        cases hbk : (doPoint sc (s.i + 1).toNat e { s with i := s.i + 1 }).2 with
        | true =>
          simp only [hbk, if_true] at hex
          simp at hex
        | false =>
          simp only [hbk, Bool.false_eq_true, if_false] at hex ⊢
          obtain ⟨hpa, -, -, -, -⟩ := doPoint_not_broke sc _ e _ hbk
          have hpa' : (doPoint sc (s.i + 1).toNat e
              { s with i := s.i + 1 }).1.pos_actual =
              s.pos_actual ++ [e.readings] := hpa
          rw [ih _ hex, hpa', List.length_append]
          simp only [List.length_singleton, List.length_cons, List.length_nil]
          omega

/-- C2 (amended): when no point of the run is flagged not-ok (no
retries), `pos_actual` holds one record per completed point iteration
at every step of the loop — after any prefix of the environment that
leaves the loop still running, its length equals the number of
iterations executed — never exceeding `npts`, and a loop that runs to
completion (exits without abort) ends with exactly `npts` records.
(When a point is retried, line 646 has already appended a record
before the retry decision of lines 661-663, so the retried index
yields an extra record and the total can exceed `npts`.) -/
theorem pos_actual_bounded_no_retry (sc : ScanCfg) (env : RunEnv)
    (hok : ∀ e ∈ env.points, pointOkCalc sc e = true) :
    (∀ n, ((scanLoop sc (env.points.take n) (initLoopSt sc)).2 = false →
        (scanLoop sc (env.points.take n)
          (initLoopSt sc)).1.pos_actual.length =
          (env.points.take n).length) ∧
      (scanLoop sc (env.points.take n)
        (initLoopSt sc)).1.pos_actual.length ≤ sc.npts) ∧
    ((runLoopResult sc env).2 = true →
      (runLoopResult sc env).1.abort = false →
      (runLoopResult sc env).1.pos_actual.length = sc.npts) := by
  constructor
  · intro n
    constructor
    · intro hex
      have h := scanLoop_count sc (env.points.take n) (initLoopSt sc) hex
      simpa [initLoopSt] using h
    · exact (scanLoop_len sc (env.points.take n) (initLoopSt sc)
        (fun x hx => hok x (List.take_subset n env.points hx)) rfl rfl
        (by simp [initLoopSt]) (by simp [initLoopSt])).1
  · exact (scanLoop_len sc env.points (initLoopSt sc) hok rfl rfl
      (by simp [initLoopSt]) (by simp [initLoopSt])).2

/-- Counterexample to C2 as stated: in `retryScan` (one point, one
stoppable trigger) the first attempt is flagged not-ok and retried;
both attempts append a record, so the run completes with
`len(pos_actual) = 2 > 1 = N`. -/
theorem retry_overflows_pos_actual_cex :
    (run retryScan (some ⟨[]⟩) retryEnv).complete = true ∧
    (run retryScan (some ⟨[]⟩) retryEnv).npts = 1 ∧
    (run retryScan (some ⟨[]⟩) retryEnv).pos_actual.length = 2 := by
  have h1 : retryScan.verifyError = none := rfl
  have h2 : retryScan.npts = 1 := rfl
  have h3 : retryEnv.points = [ptShort, ptOk] := rfl
  have h4 : retryEnv.preOk = true := rfl
  have h5 : retryEnv.postOk = true := rfl
  have h6 : ptShort.abortAt = none := rfl
  have h7 : ptOk.abortAt = none := rfl
  have h8 : ptShort.readings = [7] := rfl
  have h9 : ptOk.readings = [10] := rfl
  have h10 : retryScan.breakpoints = [] := rfl
  refine ⟨?_, ?_, ?_⟩ <;>
    simp [run, clear_interrupts, runLoopResult, scanLoop, doPoint, initLoopSt,
      pointOk_retry_short, pointOk_retry_ok, h1, h2, h3, h4, h5, h6, h7, h8,
      h9, h10]

/-- Witness for `pos_actual_bounded_no_retry` at the untroubled demo
run: after two of its three points the still-running loop holds
exactly as many records as iterations executed, bounded by 3, and the
complete run holds exactly 3. -/
theorem pos_actual_bounded_no_retry_w :
    (scanLoop demoScan (demoEnvFull.points.take 2)
      (initLoopSt demoScan)).1.pos_actual.length =
        (demoEnvFull.points.take 2).length ∧
    (scanLoop demoScan (demoEnvFull.points.take 2)
      (initLoopSt demoScan)).1.pos_actual.length ≤ demoScan.npts ∧
    (runLoopResult demoScan demoEnvFull).1.pos_actual.length =
      demoScan.npts := by
  have h := pos_actual_bounded_no_retry demoScan demoEnvFull (by decide)
  exact ⟨(h.1 2).1 (by decide), (h.1 2).2, h.2 (by decide) (by decide)⟩

/-- Move events are not checkpoint writes. -/
theorem writesOf_movesToPos (sc : ScanCfg) (i : ℕ) :
    writesOf (movesToPos sc i) = [] := by
  refine List.filter_eq_nil_iff.mpr ?_
  intro a ha
  rcases List.mem_map.mp ha with ⟨k, -, rfl⟩
  simp [Event.isWrite]

/-- Trigger starts are not checkpoint writes. -/
theorem writesOf_trigStarts (sc : ScanCfg) :
    writesOf (trigStarts sc) = [] := by
  refine List.filter_eq_nil_iff.mpr ?_
  intro a ha
  rcases List.mem_map.mp ha with ⟨k, -, rfl⟩
  simp [Event.isWrite]

/-- Moves to start are not checkpoint writes. -/
theorem writesOf_startMoves (sc : ScanCfg) (w : Bool) :
    writesOf (startMoves sc w) = [] := by
  refine List.filter_eq_nil_iff.mpr ?_
  intro a ha
  rcases List.mem_map.mp ha with ⟨k, -, rfl⟩
  simp [Event.isWrite]

/-- Restore moves are not checkpoint writes. -/
theorem writesOf_restoreMoves (sc : ScanCfg) :
    writesOf (restoreMoves sc) = [] := by
  refine List.filter_eq_nil_iff.mpr ?_
  intro a ha
  rcases List.mem_map.mp ha with ⟨k, -, rfl⟩
  simp [Event.isWrite]

/-- Checkpoint-write extraction distributes over trace append. -/
theorem writesOf_append (l1 l2 : List Event) :
    writesOf (l1 ++ l2) = writesOf l1 ++ writesOf l2 :=
  List.filter_append _ _

/-- The only write a non-interrupted iteration performs is its
breakpoint checkpoint, when the index is a breakpoint. -/
theorem writesOf_pointEvents (sc : ScanCfg) (i : ℕ) :
    writesOf (pointEvents sc i) =
      (if i ∈ sc.breakpoints then [Event.writeData (i : ℤ) false] else []) := by
  rw [pointEvents, writesOf_append, writesOf_append, writesOf_movesToPos,
    writesOf_trigStarts]
  by_cases hbp : i ∈ sc.breakpoints
  · rw [if_pos hbp]
    simp [writesOf, Event.isWrite]
  · rw [if_neg hbp]
    simp [writesOf]

/-- The pre-loop trace contributes exactly the initial checkpoint
write of line 502. -/
theorem writesOf_preLoopEvents (sc : ScanCfg) :
    writesOf (preLoopEvents sc) = [Event.writeData 0 false] := by
  rw [preLoopEvents, writesOf_append, writesOf_append, writesOf_startMoves,
    writesOf_startMoves]
  simp [writesOf, Event.isWrite]

/-- Characterization of an untroubled tail of the point loop (no
abort observed, no point flagged not-ok, enough environment): it exits
on its own with the abort flag clear, appending exactly the per-point
events of the remaining indices in order. -/
theorem scanLoop_clean (sc : ScanCfg) :
    ∀ (envs : List PointEnv) (s : LoopSt) (n : ℕ),
      (∀ e ∈ envs, pointOkCalc sc e = true ∧ e.abortAt = none) →
      s.abort = false → s.i = (n : ℤ) - 1 → n ≤ sc.npts →
      sc.npts - n ≤ envs.length →
      (scanLoop sc envs s).2 = true ∧
      (scanLoop sc envs s).1.abort = false ∧
      (scanLoop sc envs s).1.events =
        s.events ++ (List.range' n (sc.npts - n)).flatMap (pointEvents sc) := by
  intro envs
  induction envs with
  | nil =>
    intro s n hok hab hi hn hfuel
    have hfuel0 : sc.npts - n ≤ 0 := by simpa using hfuel
    have hnn : n = sc.npts := by omega
    subst hnn
    simp only [scanLoop]
    rw [if_neg (by simp [hab]), if_pos (by omega)]
    refine ⟨rfl, hab, ?_⟩
    simp
  | cons e rest ih =>
    intro s n hok hab hi hn hfuel
    have hfuel1 : sc.npts - n ≤ rest.length + 1 := by simpa using hfuel
    by_cases hnn : n = sc.npts
    · subst hnn
      simp only [scanLoop]
      rw [if_neg (by simp [hab]), if_pos (by omega)]
      refine ⟨rfl, hab, ?_⟩
      simp
    · have hlt : n < sc.npts := by omega
      simp only [scanLoop]
      rw [if_neg (by simp [hab]), if_neg (by omega)]
      have hnb : (doPoint sc (s.i + 1).toNat e { s with i := s.i + 1 }).2 =
          false :=
        doPoint_none_not_broke sc _ e _ (hok e (List.mem_cons_self e rest)).2
      simp only [hnb, Bool.false_eq_true, if_false]
      obtain ⟨-, hii, ha, -, hev⟩ := doPoint_not_broke sc _ e _ hnb
      have hpok : pointOkCalc sc e = true := (hok e (List.mem_cons_self e rest)).1
      have htn : (s.i + 1).toNat = n := by omega
      have hi' : (doPoint sc (s.i + 1).toNat e
          { s with i := s.i + 1 }).1.i = ((n + 1 : ℕ) : ℤ) - 1 := by
        rw [hii, hpok]
        simp
        omega
      have ha' : (doPoint sc (s.i + 1).toNat e
          { s with i := s.i + 1 }).1.abort = false := by
        rw [ha]
        exact hab
      have hev' : (doPoint sc (s.i + 1).toNat e
          { s with i := s.i + 1 }).1.events =
          s.events ++ pointEvents sc n := by
        rw [hev, htn]
      obtain ⟨hex2, hab2, hevs2⟩ := ih
        ((doPoint sc (s.i + 1).toNat e { s with i := s.i + 1 }).1) (n + 1)
        (fun x hx => hok x (List.mem_cons_of_mem e hx)) ha' hi'
        (by omega) (by omega)
      refine ⟨hex2, hab2, ?_⟩
      rw [hevs2, hev']
      have hr : List.range' n (sc.npts - n) =
          n :: List.range' (n + 1) (sc.npts - (n + 1)) := by
        have h1 : sc.npts - n = (sc.npts - (n + 1)) + 1 := by omega
        rw [h1, List.range'_succ]
      rw [hr, List.flatMap_cons, List.append_assoc]

/-- The checkpoint writes of a run of untroubled iterations are
exactly the breakpoint indices among them, in order. -/
theorem writesOf_flatMap_pointEvents (sc : ScanCfg) (l : List ℕ) :
    writesOf (l.flatMap (pointEvents sc)) =
      (l.filter (fun i => decide (i ∈ sc.breakpoints))).map
        (fun i => Event.writeData (i : ℤ) false) := by
  induction l with
  | nil => rfl
  | cons a t ih =>
    rw [List.flatMap_cons, writesOf_append, ih, writesOf_pointEvents]
    by_cases hbp : a ∈ sc.breakpoints
    · rw [if_pos hbp]
      simp [List.filter_cons, hbp]
    · rw [if_neg hbp]
      simp [List.filter_cons, hbp]

/-- C3 (amended): in a run with no abort and no retried point, the
output sink receives the initial write of line 502 when the file is
opened, then one breakpoint checkpoint write per index of `[0, N)`
that lies in the breakpoint set, in order, then exactly one closing
write (`breakpoint=-1, close_file=True`) at scan end.  (An abort skips
the breakpoint writes of the points never reached, and a retried
breakpoint point writes once per attempt, so the claim's exact count
holds only for such untroubled runs, and only counting the initial
write separately.) -/
theorem checkpoint_write_trace (sc : ScanCfg) (d : DbState) (env : RunEnv)
    (hv : sc.verifyError = none) (hpre : env.preOk = true)
    (hpost : env.postOk = true)
    (henv : ∀ e ∈ env.points, pointOkCalc sc e = true ∧ e.abortAt = none)
    (hfuel : sc.npts ≤ env.points.length) :
    writesOf (run sc (some d) env).events =
      Event.writeData 0 false ::
        (bpWrites sc 0 ++ [Event.writeData (-1) true]) := by
  obtain ⟨-, -, hev⟩ := scanLoop_clean sc env.points (initLoopSt sc) 0 henv
    rfl (by simp [initLoopSt]) (Nat.zero_le _) (by omega)
  have hrun : (run sc (some d) env).events =
      (runLoopResult sc env).1.events ++ restoreMoves sc ++
        [Event.writeData (-1) true] := by
    simp only [run, hv, clear_interrupts, hpre, hpost, if_true]
  have hev' : (runLoopResult sc env).1.events =
      (initLoopSt sc).events ++
        (List.range' 0 (sc.npts - 0)).flatMap (pointEvents sc) := hev
  rw [hrun, writesOf_append, writesOf_append, hev', writesOf_append,
    writesOf_flatMap_pointEvents,
    show (initLoopSt sc).events = preLoopEvents sc from rfl,
    writesOf_preLoopEvents, writesOf_restoreMoves, bpWrites]
  simp [writesOf, Event.isWrite]

/-- Counterexample to C3 as stated: `bpAbortScan` has breakpoint set
`{1}`, but the run aborted at point 0 performs no write with
`breakpoint = 1` — its writes are the initial one (not at a breakpoint
index, not closing) and the closing one, so on abort the breakpoint
write count is both one short (index 1 missing) and one over (the
initial write). -/
theorem breakpoint_writes_missed_cex :
    bpAbortScan.breakpoints = [1] ∧
    (runLoopResult bpAbortScan bpAbortEnv).1.abort = true ∧
    writesOf (run bpAbortScan (some ⟨[]⟩) bpAbortEnv).events =
      [Event.writeData 0 false, Event.writeData (-1) true] := by
  refine ⟨rfl, by decide, by decide⟩

/-- Witness for `checkpoint_write_trace` at the untroubled demo run
(no breakpoints: initial plus closing writes only). -/
theorem checkpoint_write_trace_w :
    writesOf (run demoScan (some ⟨[]⟩) demoEnvFull).events =
      Event.writeData 0 false ::
        (bpWrites demoScan 0 ++ [Event.writeData (-1) true]) :=
  checkpoint_write_trace demoScan ⟨[]⟩ demoEnvFull (by decide) rfl rfl
    (by decide) (by decide)

/-- C1: a run whose point loop ends by an observed abort after `k`
points were recorded (`k < N`) still runs the full completion path:
`pos_actual` is returned exactly as accumulated (the closing
`write_data` call has `clear=False`, nothing discards it), its length
is `k`, a non-blocking `move_to` back to the pre-scan `current()`
position is issued to every positioner, and the final event is the
closing checkpoint write. -/
theorem abort_preserves_partial_data (sc : ScanCfg) (d : DbState)
    (env : RunEnv) (k : ℕ)
    (hv : sc.verifyError = none) (hpre : env.preOk = true)
    (hpost : env.postOk = true)
    (_hab : (runLoopResult sc env).1.abort = true)
    (hk : (runLoopResult sc env).1.pos_actual.length = k)
    (_hkN : k < sc.npts) :
    (run sc (some d) env).pos_actual = (runLoopResult sc env).1.pos_actual ∧
    (run sc (some d) env).pos_actual.length = k ∧
    (∀ j, j < sc.positioners.length →
      Event.moveTo j (sc.positioners.getD j default).current0 false ∈
        (run sc (some d) env).events) ∧
    (run sc (some d) env).events.getLast? =
      some (Event.writeData (-1) true) := by
  refine ⟨?_, ?_, ?_, ?_⟩
  · simp only [run, hv, clear_interrupts, hpre, hpost, if_true]
  · simp only [run, hv, clear_interrupts, hpre, hpost, if_true]
    exact hk
  · intro j hj
    simp only [run, hv, clear_interrupts, hpre, hpost, if_true]
    have hm : Event.moveTo j (sc.positioners.getD j default).current0 false ∈
        restoreMoves sc :=
      List.mem_map.mpr ⟨j, List.mem_range.mpr hj, rfl⟩
    exact List.mem_append.mpr (Or.inl (List.mem_append.mpr (Or.inr hm)))
  · simp only [run, hv, clear_interrupts, hpre, hpost, if_true]
    exact List.getLast?_concat _

/-- Witness for `abort_preserves_partial_data`: the demo run aborted
while processing its second point keeps its single record, restores
the positioner to 5 and closes with the final checkpoint write. -/
theorem abort_preserves_partial_data_w :
    (run demoScan (some ⟨[]⟩) demoEnvAbort).pos_actual = [[10]] ∧
    Event.moveTo 0 5 false ∈ (run demoScan (some ⟨[]⟩) demoEnvAbort).events ∧
    (run demoScan (some ⟨[]⟩) demoEnvAbort).events.getLast? =
      some (Event.writeData (-1) true) := by
  have h := abort_preserves_partial_data demoScan ⟨[]⟩ demoEnvAbort 1
    (by decide) rfl rfl (by decide) (by decide) (by decide)
  refine ⟨?_, ?_, h.2.2.2⟩
  · rw [h.1]
    decide
  · exact h.2.2.1 0 (by decide)

/-- Modelled from the spec: the ways a position array can violate the
device soft limits that `Positioner.verify_array` (in the missing
`positioner.py`) checks, per spec section 4.1. -/
def Positioner.outOfBounds (p : Positioner) : Prop :=
  (∃ b, p.hlm = some b ∧ ∃ x ∈ p.array, b < x) ∨
  (∃ b, p.llm = some b ∧ ∃ x ∈ p.array, x < b)

/-- An empty or out-of-bounds array fails `verify_array`. -/
theorem verify_array_false_of (p : Positioner)
    (h : p.array = [] ∨ p.outOfBounds) : p.verify_array = false := by
  cases hva : p.verify_array with
  | false => rfl
  | true =>
    exfalso
    rcases h with he | hob
    · rw [Positioner.verify_array, he] at hva
      simp at hva
    · have hva' := hva
      rw [Positioner.verify_array] at hva'
      simp only [Bool.and_eq_true] at hva'
      obtain ⟨⟨-, h2⟩, h3⟩ := hva'
      rcases hob with ⟨b, hb, x, hx, hlt⟩ | ⟨b, hb, x, hx, hlt⟩
      · rw [hb] at h2
        have := List.all_eq_true.mp h2 x hx
        simp at this
        exact absurd hlt (not_lt.mpr this)
      · rw [hb] at h3
        have := List.all_eq_true.mp h3 x hx
        simp at this
        exact absurd hlt (not_lt.mpr this)

/-- A positioner failing `verify_array` makes the verification loop
report an error. -/
theorem verifyErrorLoop_bad (ps : List Positioner) :
    ∀ n, (∃ p ∈ ps, p.verify_array = false) →
      verifyErrorLoop ps n ≠ none := by
  induction ps with
  | nil =>
    rintro n ⟨p, hp, -⟩
    cases hp
  | cons q t ih =>
    rintro n ⟨p, hp, hpf⟩
    by_cases hq : q.verify_array = true
    · have hpt : p ∈ t := by
        rcases List.mem_cons.mp hp with rfl | h
        · rw [hq] at hpf
          cases hpf
        · exact h
      simp only [verifyErrorLoop]
      rw [if_neg (not_not_intro hq)]
      cases n with
      | none => exact ih _ ⟨p, hpt, hpf⟩
      | some m =>
        show (if q.array.length ≠ m then
            some "Inconsistent positioner array length"
          else verifyErrorLoop t (some m)) ≠ none
        by_cases hl : q.array.length = m
        · rw [if_neg (not_not_intro hl)]
          exact ih _ ⟨p, hpt, hpf⟩
        · rw [if_pos hl]
          simp
    · simp only [verifyErrorLoop]
      rw [if_pos hq]
      simp

/-- A positioner whose array length differs from the running length
makes the verification loop report an error. -/
theorem verifyErrorLoop_mismatch (ps : List Positioner) :
    ∀ m, (∃ p ∈ ps, p.array.length ≠ m) →
      verifyErrorLoop ps (some m) ≠ none := by
  induction ps with
  | nil =>
    rintro m ⟨p, hp, -⟩
    cases hp
  | cons q t ih =>
    rintro m ⟨p, hp, hpl⟩
    simp only [verifyErrorLoop]
    by_cases hq : q.verify_array = true
    · rw [if_neg (not_not_intro hq)]
      show (if q.array.length ≠ m then
          some "Inconsistent positioner array length"
        else verifyErrorLoop t (some m)) ≠ none
      by_cases hl : q.array.length = m
      · rw [if_neg (not_not_intro hl)]
        have hpt : p ∈ t := by
          rcases List.mem_cons.mp hp with rfl | h
          · exact absurd hl hpl
          · exact h
        exact ih m ⟨p, hpt, hpl⟩
      · rw [if_pos hl]
        simp
    · rw [if_pos hq]
      simp

/-- C4: a scan in which some positioner's array is empty, out of the
device soft-limit bounds, or of a length different from the first
positioner's, fails verification with an error message, and `run` on
such a scan returns `None` before issuing any command: the trace is
empty (no motion, no file open), the loop is never entered and no data
is recorded.  (`Positioner.verify_array` is modelled from the spec, as
`positioner.py` is not among the sources.) -/
theorem verify_failure_blocks_run (sc : ScanCfg) (db : Option DbState)
    (env : RunEnv) (g : ScanGroupState)
    (hbad :
      (∃ p ∈ sc.positioners, p.array = [] ∨ p.outOfBounds) ∨
      (∃ p ∈ sc.positioners,
        p.array.length ≠ (sc.positioners.headD default).array.length)) :
    sc.verifyError ≠ none ∧
    (verify_scan sc g db).1 = false ∧
    (run sc db env).events = [] ∧
    (run sc db env).retval = none ∧
    (run sc db env).pos_actual = [] ∧
    (run sc db env).cpt = 0 ∧
    (run sc db env).complete = false := by
  have hv : sc.verifyError ≠ none := by
    rcases hbad with ⟨p, hp, hcond⟩ | ⟨p, hp, hpl⟩
    · exact verifyErrorLoop_bad sc.positioners none
        ⟨p, hp, verify_array_false_of p hcond⟩
    · show verifyErrorLoop sc.positioners none ≠ none
      cases hps : sc.positioners with
      | nil =>
        rw [hps] at hp
        cases hp
      | cons q t =>
        rw [hps] at hp hpl
        simp only [List.headD_cons] at hpl
        simp only [verifyErrorLoop]
        by_cases hq : q.verify_array = true
        · rw [if_neg (not_not_intro hq)]
          have hpt : p ∈ t := by
            rcases List.mem_cons.mp hp with rfl | h
            · exact absurd rfl hpl
            · exact h
          exact verifyErrorLoop_mismatch t q.array.length ⟨p, hpt, hpl⟩
        · rw [if_pos hq]
          simp
  obtain ⟨m, hm⟩ : ∃ m, sc.verifyError = some m := by
    cases ho : sc.verifyError with
    | none => exact absurd ho hv
    | some m => exact ⟨m, rfl⟩
  refine ⟨hv, ?_, ?_, ?_, ?_, ?_, ?_⟩
  · rw [show verify_scan sc g db = verify_scan_loop sc.positioners none g db
      from rfl, verify_scan_loop_eq,
      show verifyErrorLoop sc.positioners none = some m from hm]
  · simp [run, hm]
  · simp [run, hm]
  · simp [run, hm]
  · simp [run, hm]
  · simp [run, hm]

/-- Witness for `verify_failure_blocks_run` at the mismatched-length
scan. -/
theorem verify_failure_blocks_run_w :
    mismatchScan.verifyError ≠ none ∧
    (run mismatchScan (some ⟨[]⟩) demoEnvFull).events = [] ∧
    (run mismatchScan (some ⟨[]⟩) demoEnvFull).retval = none := by
  have h := verify_failure_blocks_run mismatchScan (some ⟨[]⟩) demoEnvFull
    ⟨none, none⟩
    (Or.inr ⟨⟨"B", [0], 0, none, none⟩, by decide, by decide⟩)
  exact ⟨h.1, h.2.2.1, h.2.2.2.1⟩

end StepScan
